import Mathlib

/-!
Verification development for the git-external repository (stettberger/git-external).

The supplied source consists of two files:

* `init.example.py` — an example extension class `EchoExtension` exposing the
  dict-based registration convention: a `commands()` method returning a dict
  `{ARG: (HELP, CMD)}`, and a variadic handler `cmd_echo(*args)` that prints its
  argument tuple followed by the stored back-reference `self.all_commands`.
* `setup.py` — the packaging manifest of the `git-external` tool.

The host loader (extension discovery, table merge, dispatch) and the list-based
registration variant are described by the specification but absent from the
supplied source; definitions for those parts are modelled from the spec and say
so in their doc comments.
-/

namespace GitExternal

/-- Elements printed to standard output by the example handler.  In
`init.example.py`, `cmd_echo` executes `print(args)` (the positional argument
tuple) and then `print(self.all_commands)` (the commands object received at
construction, of some host-chosen type `α`). -/
inductive Printed (α : Type) where
  | argsTuple (args : List String)
  | commandsObj (c : α)
deriving DecidableEq

/-- The extension class of `init.example.py`.  Its constructor
`__init__(self, commands)` stores the received commands object in the instance
field `all_commands` and does nothing else.  `α` is the (host-chosen) type of
the commands object. -/
structure EchoExtension (α : Type) where
  all_commands : α
deriving DecidableEq

/-- A bound handler value, as stored in the dict returned by `commands()`.
The only handler occurring in the supplied source is the bound method
`self.cmd_echo` of an `EchoExtension` instance. -/
inductive Handler (α : Type) where
  | boundCmdEcho (self : EchoExtension α)
deriving DecidableEq

/-- An entry of the registration dict: a pair of help text and handler,
`(HELP, CMD)` in the docstring of `commands()`. -/
abbrev Entry (α : Type) := String × Handler α

/-- The registration dict `{ARG: (HELP, CMD)}`, embedded as an association
list from command name to entry (Python dicts are ordered). -/
abbrev Table (α : Type) := List (String × Entry α)

/-- The method `cmd_echo(self, *args)` of `init.example.py`: it prints the
positional argument tuple and then the stored `self.all_commands`, and returns
nothing; the embedded value is the sequence of prints. -/
def EchoExtension.cmd_echo (e : EchoExtension α) (args : List String) :
    List (Printed α) :=
  [Printed.argsTuple args, Printed.commandsObj e.all_commands]

/-- The method `commands(self)` of `init.example.py`: it takes no argument
besides the receiver and returns the one-entry dict
`{'echo': (' -- echo everything (from init.example.py)', self.cmd_echo)}`. -/
def EchoExtension.commands (e : EchoExtension α) : Table α :=
  [("echo", (" -- echo everything (from init.example.py)",
    Handler.boundCmdEcho e))]

/-- Invocation of a handler with positional arguments.  The sole handler of the
supplied source, `cmd_echo`, is declared variadic (`*args`), so applying it to
any argument list succeeds; `none` would model an arity mismatch, which cannot
occur here. -/
def invokeHandler : Handler α → List String → Option (List (Printed α))
  | Handler.boundCmdEcho e, args => some (e.cmd_echo args)

/-- Dict lookup on the embedded registration table. -/
def lookupCmd : Table α → String → Option (Entry α)
  | [], _ => none
  | (k, v) :: rest, n => if k = n then some v else lookupCmd rest n

/-- The key set of a registration table. -/
def keys (t : Table α) : List String := t.map Prod.fst

/-- Modelled from the spec: the host dispatcher is absent from the supplied
source.  Per the spec, dispatching looks the command name up in the table and
invokes the associated handler with the given positional arguments; the result
records which handler was called and with which arguments. -/
def dispatchCall (t : Table α) (cmd : String) (args : List String) :
    Option (Handler α × List String) :=
  (lookupCmd t cmd).map (fun e => (e.2, args))

/-- Modelled from the spec: the host loader merge step is absent from the
supplied source.  Per the spec, command names must be unique across the merged
result, merging fails fast with a configuration error naming the duplicate
command name, and otherwise the dispatch table is the union of both
contributions. -/
def mergeTables (t1 t2 : Table α) : Except String (Table α) :=
  match t2.find? (fun p => (lookupCmd t1 p.1).isSome) with
  | some p => Except.error ("duplicate command name: " ++ p.1)
  | none => Except.ok (t1 ++ t2)

/-- The observable calls the host may make on an already-constructed
`EchoExtension` instance: the registration method `commands()` or the handler
`cmd_echo` with some positional arguments. -/
inductive Op where
  | callCommands
  | callCmdEcho (args : List String)

/-- One result of an operation on the extension. -/
inductive OpResult (α : Type) where
  | returnedTable (t : Table α)
  | printed (out : List (Printed α))

/-- One operation on the extension.  Faithful to `init.example.py`: neither
`commands` nor `cmd_echo` assigns to any instance field, so the resulting
instance state is the incoming one. -/
def EchoExtension.step (e : EchoExtension α) : Op → OpResult α × EchoExtension α
  | Op.callCommands => (OpResult.returnedTable e.commands, e)
  | Op.callCmdEcho args => (OpResult.printed (e.cmd_echo args), e)

/-- Running a sequence of operations on the extension, threading its state. -/
def runOps (e : EchoExtension α) (ops : List Op) : EchoExtension α :=
  ops.foldl (fun s op => (s.step op).2) e

/-- Construction per `__init__`: the host hands the extension the shared
commands object `c`; the paired component threads the registry object itself,
so that mutation of the registry by the extension would be observable. -/
def constructedState (c : α) : EchoExtension α × α :=
  (EchoExtension.mk c, c)

/-- One operation with the shared registry threaded through.  Faithful to
`init.example.py`: `commands` builds a fresh dict and `cmd_echo` only reads
`self.all_commands` inside `print`, so no operation writes to the registry. -/
def stepWithRegistry (s : EchoExtension α × α) (op : Op) : EchoExtension α × α :=
  ((s.1.step op).2, s.2)

/-- Running a sequence of operations starting from a freshly constructed
extension, with the shared registry threaded through. -/
def runHost (c : α) (ops : List Op) : EchoExtension α × α :=
  ops.foldl stepWithRegistry (constructedState c)

/-- Modelled from the spec: a boolean toggle option declaration as recorded by
the mock configuration object of the list-based variant — a name, short and
long aliases, a default value of false, and the value set when the flag is
present. -/
structure BoolOpt where
  shortAlias : String
  longAlias : String
  optName : String
  defaultValue : Bool
  valueWhenPresent : Bool
deriving DecidableEq

/-- Modelled from the spec: the mock configuration object handed to a
setup-function of the list-based variant.  It records the declared boolean
options in order and the bound default handler (`H` is the handler type). -/
structure MockConfig (H : Type) where
  boolOpts : List BoolOpt
  defaultHandler : Option H
deriving DecidableEq

/-- A fresh mock configuration object: nothing recorded yet. -/
def MockConfig.empty : MockConfig H :=
  { boolOpts := [], defaultHandler := none }

/-- Recording one boolean option on the configuration object. -/
def MockConfig.addBoolOpt (c : MockConfig H) (o : BoolOpt) : MockConfig H :=
  { c with boolOpts := c.boolOpts ++ [o] }

/-- Binding the default handler on the configuration object. -/
def MockConfig.bindDefaultHandler (c : MockConfig H) (h : H) : MockConfig H :=
  { c with defaultHandler := some h }

/-- Modelled from the spec: the setup-function of the list-based variant.  It
is absent from the supplied source; per the spec it registers one boolean flag
`verbose` with aliases `-v` and `--verbose`, default value false and value true
when the flag is present, and binds the declared handler as the default
handler. -/
def verboseSetup (handler : H) (c : MockConfig H) : MockConfig H :=
  (c.addBoolOpt
    { shortAlias := "-v", longAlias := "--verbose", optName := "verbose",
      defaultValue := false, valueWhenPresent := true }).bindDefaultHandler
    handler

/-- The packaging manifest arguments of `setup.py`, field for field. -/
structure SetupArgs where
  name : String
  version : String
  description : String
  author : String
  author_email : String
  url : String
  classifiers : List String
  zip_safe : Bool
  scripts : List String

/-- The `setup(...)` call of `setup.py`, embedded literally. -/
def gitExternalSetup : SetupArgs :=
  { name := "git-external",
    version := "0.1",
    description := "Provide an SVN external mechanism for Git.",
    author := "Christian Dietrich",
    author_email := "stettberger@dokucode.de",
    url := "https://github.com/stettberger/git-external",
    classifiers :=
      ["Intended Audience :: Developers",
       "Topic :: Software Development",
       "Environment :: Console",
       "License :: OSI Approved :: GNU General Public License v3 or later (GPLv3+)",
       "Topic :: Software Development",
       "Topic :: Software Development :: Version Control"],
    zip_safe := false,
    scripts := ["bin/git-external"] }

/-- The installed name of a script is the last path component of its entry in
the `scripts` list. -/
def scriptBaseName (s : String) : String :=
  String.mk (s.data.foldl (fun acc c => if c = '/' then [] else acc ++ [c]) [])

/-- A concrete one-command table for evaluating the merge step, over `Nat` as
the commands-object type. -/
def tableA : Table Nat :=
  [("echo", (" -- echo everything (from init.example.py)",
    Handler.boundCmdEcho (EchoExtension.mk 0)))]

/-- A second concrete table whose command name differs from `tableA`. -/
def tableB : Table Nat :=
  [("status", (" -- report status", Handler.boundCmdEcho (EchoExtension.mk 1)))]

theorem EchoExtension.step_snd (e : EchoExtension α) (op : Op) :
    (e.step op).2 = e := by
  cases op <;> rfl

theorem runOps_eq (e : EchoExtension α) (ops : List Op) : runOps e ops = e := by
  induction ops with
  | nil => rfl
  | cons op rest ih =>
      simp only [runOps, List.foldl_cons, EchoExtension.step_snd] at ih ⊢
      exact ih

theorem lookupCmd_append (t1 t2 : Table α) (k : String) :
    lookupCmd (t1 ++ t2) k =
      match lookupCmd t1 k with
      | some v => some v
      | none => lookupCmd t2 k := by
  induction t1 with
  | nil => rfl
  | cons p rest ih =>
      by_cases h : p.1 = k <;> simp [lookupCmd, h, ih]

theorem mem_keys_iff (t : Table α) (k : String) :
    k ∈ keys t ↔ (lookupCmd t k).isSome := by
  induction t with
  | nil => simp [keys, lookupCmd]
  | cons p rest ih =>
      obtain ⟨a, b⟩ := p
      show k ∈ a :: keys rest ↔ (lookupCmd ((a, b) :: rest) k).isSome
      by_cases h : a = k
      · subst h
        simp [lookupCmd]
      · have h2 : ¬ k = a := fun hk => h hk.symm
        simp [lookupCmd, h, h2, ih]

/-- C1: for any `EchoExtension` instance `e`, the registration method
`commands()` returns exactly the one-entry mapping from the command name
`"echo"` to the pair of the help text
`" -- echo everything (from init.example.py)"` and the bound handler
`e.cmd_echo`. -/
theorem commands_returns_exact_echo_entry (α : Type) (e : EchoExtension α) :
    e.commands =
      [("echo", (" -- echo everything (from init.example.py)",
        Handler.boundCmdEcho e))] ∧
    e.commands.length = 1 := by
  exact ⟨rfl, rfl⟩

/-- C2: calling the registration method twice yields equal mappings.  With the
instance state threaded explicitly, the table returned by a second call to
`commands()` on the state left by a first call equals the table returned by
the first call. -/
theorem commands_idempotent (α : Type) (e : EchoExtension α) :
    (e.step Op.callCommands).1 =
      (((e.step Op.callCommands).2).step Op.callCommands).1 := by
  rfl

/-- C3: dispatching the command name `"echo"` of the dict-based example
extension with arguments `("a", "b")` selects the bound handler `cmd_echo`
with exactly those positional arguments, and invoking it produces exactly two
prints: the argument tuple `("a", "b")` and the full command mapping held by
the extension. -/
theorem dispatch_echo_invokes_cmd_echo (α : Type) (e : EchoExtension α) :
    dispatchCall e.commands "echo" ["a", "b"] =
      some (Handler.boundCmdEcho e, ["a", "b"]) ∧
    invokeHandler (Handler.boundCmdEcho e) ["a", "b"] =
      some [Printed.argsTuple ["a", "b"],
            Printed.commandsObj e.all_commands] := by
  exact ⟨rfl, rfl⟩

theorem foldl_stepWithRegistry_snd (s : EchoExtension α × α) (ops : List Op) :
    (ops.foldl stepWithRegistry s).2 = s.2 := by
  induction ops generalizing s with
  | nil => rfl
  | cons op rest ih => simpa [stepWithRegistry] using ih (stepWithRegistry s op)

/-- C4: the extension only observes, and never mutates, the shared commands
registry received at construction: the registry component equals `c` right
after construction and after any sequence of `commands()` and `cmd_echo`
operations. -/
theorem registry_never_mutated (α : Type) (c : α) (ops : List Op) :
    (constructedState c).2 = c ∧ (runHost c ops).2 = c := by
  exact ⟨rfl, foldl_stepWithRegistry_snd (constructedState c) ops⟩

/-- C5: for two extensions contributing disjoint command names, the merged
dispatch table is built without error and contains exactly the union of both
contributions: a name resolves to an entry in the merged table exactly when
that entry is the one contributed by its own extension. -/
theorem merge_disjoint_is_union (α : Type) (t1 t2 : Table α)
    (hdisj : ∀ k ∈ keys t1, k ∉ keys t2) :
    mergeTables t1 t2 = Except.ok (t1 ++ t2) ∧
      ∀ k v, lookupCmd (t1 ++ t2) k = some v ↔
        lookupCmd t1 k = some v ∨ lookupCmd t2 k = some v := by
  have hfind : t2.find? (fun p => (lookupCmd t1 p.1).isSome) = none := by
    rw [List.find?_eq_none]
    intro p hp hsome
    have hk1 : p.1 ∈ keys t1 :=
      (mem_keys_iff t1 p.1).mpr (by simpa using hsome)
    exact hdisj p.1 hk1 (List.mem_map.mpr ⟨p, hp, rfl⟩)
  refine ⟨by simp [mergeTables, hfind], ?_⟩
  intro k v
  rw [lookupCmd_append]
  cases h1 : lookupCmd t1 k with
  | some w =>
      show some w = some v ↔ some w = some v ∨ lookupCmd t2 k = some v
      constructor
      · exact Or.inl
      · rintro (h | h)
        · exact h
        · exfalso
          have hk1 : k ∈ keys t1 := (mem_keys_iff t1 k).mpr (by simp [h1])
          have hk2 : k ∈ keys t2 := (mem_keys_iff t2 k).mpr (by simp [h])
          exact hdisj k hk1 hk2
  | none =>
      show lookupCmd t2 k = some v ↔ none = some v ∨ lookupCmd t2 k = some v
      simp

theorem merge_disjoint_is_union_witness :
    (∀ k ∈ keys tableA, k ∉ keys tableB) ∧
      (mergeTables tableA tableB = Except.ok (tableA ++ tableB) ∧
        ∀ k v, lookupCmd (tableA ++ tableB) k = some v ↔
          lookupCmd tableA k = some v ∨ lookupCmd tableB k = some v) :=
  ⟨by decide, merge_disjoint_is_union Nat tableA tableB (by decide)⟩

/-- C6: for two extensions contributing the same command name, the merge step
raises a detectable configuration error instead of silently overwriting or
dropping one of the entries. -/
theorem merge_duplicate_errors (α : Type) (t1 t2 : Table α)
    (hdup : ∃ k ∈ keys t1, k ∈ keys t2) :
    ∃ msg, mergeTables t1 t2 = Except.error msg := by
  obtain ⟨k, hk1, hk2⟩ := hdup
  obtain ⟨p, hp, hpk⟩ := List.mem_map.mp hk2
  have hfind : t2.find? (fun q => (lookupCmd t1 q.1).isSome) ≠ none := by
    intro hnone
    apply List.find?_eq_none.mp hnone p hp
    rw [hpk]
    exact (mem_keys_iff t1 k).mp hk1
  cases hfe : t2.find? (fun q => (lookupCmd t1 q.1).isSome) with
  | none => exact absurd hfe hfind
  | some q =>
      exact ⟨"duplicate command name: " ++ q.1, by simp [mergeTables, hfe]⟩

theorem merge_duplicate_errors_witness :
    (∃ k ∈ keys tableA, k ∈ keys tableA) ∧
      ∃ msg, mergeTables tableA tableA = Except.error msg :=
  ⟨by decide, merge_duplicate_errors Nat tableA tableA (by decide)⟩

/-- C7: invoking the list-based variant's setup-function with a fresh mock
configuration object records exactly one boolean option, named `verbose` with
aliases `-v` and `--verbose`, default value false and value true when the flag
is present, and binds the declared handler as the default handler. -/
theorem verboseSetup_records_single_option (H : Type) (handler : H) :
    (verboseSetup handler MockConfig.empty).boolOpts =
      [{ shortAlias := "-v", longAlias := "--verbose", optName := "verbose",
         defaultValue := false, valueWhenPresent := true }] ∧
    (verboseSetup handler MockConfig.empty).boolOpts.length = 1 ∧
    (verboseSetup handler MockConfig.empty).defaultHandler = some handler := by
  exact ⟨rfl, rfl, rfl⟩

/-- C8: the packaging manifest declares exactly one installed script, whose
installed name is `git-external`, and declares the package version `0.1`. -/
theorem setup_declares_single_script :
    gitExternalSetup.scripts = ["bin/git-external"] ∧
    gitExternalSetup.scripts.length = 1 ∧
    gitExternalSetup.scripts.map scriptBaseName = ["git-external"] ∧
    gitExternalSetup.version = "0.1" := by
  refine ⟨rfl, rfl, ?_, rfl⟩
  decide

/-- C9: the example handler is variadic: invoking `cmd_echo` on any
`EchoExtension` instance with any argument tuple, the empty tuple included, is
well-defined and never fails. -/
theorem cmd_echo_accepts_any_arity (α : Type) (e : EchoExtension α)
    (args : List String) :
    ∃ out, invokeHandler (Handler.boundCmdEcho e) args = some out := by
  exact ⟨e.cmd_echo args, rfl⟩

/-- C10: for every `EchoExtension` constructed with a commands object `c`, the
`all_commands` field equals `c` immediately after construction and after any
sequence of `commands()` and `cmd_echo` calls: no operation reassigns the
stored back-reference. -/
theorem all_commands_stable (α : Type) (c : α) (ops : List Op) :
    (EchoExtension.mk c).all_commands = c ∧
    (runOps (EchoExtension.mk c) ops).all_commands = c := by
  exact ⟨rfl, by rw [runOps_eq]⟩

end GitExternal
